import Mathlib

/-!
# Rancher HTTP client: request execution

A shallow embedding of `internal/provider/rancher_client/rancher_http_client.go`.

The Go code talks to the standard library (`crypto/x509`, `encoding/json`,
`net/http`, `tflog`).  What the library and the network answer is collected in
an `Env` value that every run takes as an argument; what the code does to the
outside (log events, requests handed to the transport, the deferred close) is
returned as a list of `Effect`s next to the Go return values.

Conventions
* a Go `error` is `Option String`: `none` is `nil`, `some m` is an error whose
  `Error()` text is `m`;
* a Go `[]byte` result is `Option Bytes`: `none` is the `nil` slice;
* a Go pointer that may be `nil` is an `Option`;
* Go `int` is `Int` (no arithmetic is done on it, only a comparison).
-/

namespace rancher_client

/-! ## Data -/

/-- Raw bytes. -/
abbrev Bytes := List UInt8

/-- Model of `http.Header`: the `Add` calls in order, as (key, value) pairs.
    Go stores the values under the canonical form of the key; the only key the
    code itself adds, `Authorization`, is already canonical. -/
abbrev Header := List (String × String)

/-- Model of `Header.Add`: append one value under a key. -/
def Header.Add (h : Header) (key value : String) : Header :=
  h ++ [(key, value)]

/-- Model of `Header.Values`: all values recorded under a key, in order. -/
def Header.Values (h : Header) (key : String) : List String :=
  (h.filter (fun kv => kv.1 == key)).map Prod.snd

/-- Model of `Header.Get`: the first value recorded under a key, the empty
    string when there is none. -/
def Header.Get (h : Header) (key : String) : String :=
  (h.Values key).headD ""

/-- Model of `context.Context`; the code only hands it to the logger. -/
structure Context where
  id : Nat
deriving DecidableEq, Repr

/-- A dynamic Go value held in an `interface{}`; what `json.Marshal` makes of
    it is decided by the environment. -/
structure AnyValue where
  id : Nat
deriving DecidableEq, Repr

/-- Source: `type RancherHttpClient struct`. `Timeout` is a `time.Duration`
    (nanoseconds). -/
structure RancherHttpClient where
  ApiURL : String
  CACert : String
  IgnoreSystemCA : Bool
  Insecure : Bool
  Token : String
  MaxRedirects : Int
  Timeout : Int
deriving DecidableEq, Repr

/-- Source: `NewRancherHttpClient`. -/
def NewRancherHttpClient (apiURL : String) (caCert : String) (ignoreSystemCA : Bool)
    (insecure : Bool) (token : String) (maxRedirects : Int) (timeout : Int) :
    RancherHttpClient :=
  { ApiURL := apiURL
    CACert := caCert
    IgnoreSystemCA := ignoreSystemCA
    Insecure := insecure
    Token := token
    MaxRedirects := maxRedirects
    Timeout := timeout }

/-- Source: `type RancherHttpRequest struct`. `Body` is an `interface{}`
    (`none` is the nil interface); `Headers` is a Go map, listed here in the
    order the `range` loop visits it (keys are distinct in a map, the order is
    arbitrary). -/
structure RancherHttpRequest where
  Method : String
  Endpoint : String
  Body : Option AnyValue
  Headers : List (String × String)
deriving DecidableEq, Repr

/-- The dynamic value behind the `RancherClient` interface argument: either a
    `*RancherHttpClient` (possibly a nil pointer) or anything else (another
    implementation, or the nil interface), named by its dynamic type. -/
inductive RancherClient where
  | httpClient (c : Option RancherHttpClient)
  | other (dynamicType : String)
deriving DecidableEq, Repr

/-- Model of `x509.CertPool`: the certificates it holds. -/
structure CertPool where
  certs : List String
deriving DecidableEq, Repr

/-- Model of `x509.NewCertPool()`: a fresh empty pool. -/
def NewCertPool : CertPool := ⟨[]⟩

/-- Model of `tls.Config`, the two fields the code sets. `RootCAs` is a
    pointer: `none` is nil. -/
structure TLSConfig where
  InsecureSkipVerify : Bool
  RootCAs : Option CertPool
deriving DecidableEq, Repr

/-- Model of `http.Transport`, the two fields the code sets; `Proxy` is always
    `http.ProxyFromEnvironment`. -/
structure Transport where
  TLSClientConfig : TLSConfig
  ProxyFromEnvironment : Bool
deriving DecidableEq, Repr

/-- Model of `http.Request`: what the code and the claims look at. -/
structure HttpRequest where
  Method : String
  URL : String
  Body : Bytes
  Header : Header
deriving DecidableEq, Repr

/-- Model of `resp.Body` as seen by `ioutil.ReadAll`: the bytes it returns and
    the error it returns with them (`none` when the stream ends cleanly). -/
structure BodyStream where
  data : Bytes
  readErr : Option String
deriving DecidableEq, Repr

/-- Model of `http.Response`. -/
structure Response where
  StatusCode : Int
  Status : String
  Header : Header
  Body : BodyStream
deriving DecidableEq, Repr

/-- What one round trip yields: the response of the server, whatever its
    status, or a transport failure. -/
inductive ServerReply where
  | response (resp : Response)
  | failure (err : String)
deriving DecidableEq, Repr

/-- Model of `redirectBehavior` of `net/http` for the requests `DoRequest`
    builds: the status codes 301, 302, 303, 307 and 308 ask for a redirect.
    (For 307 and 308 the library also wants to be able to send the body
    again; a request built by `http.NewRequest` from a `*bytes.Buffer` always
    can.) -/
def http.shouldRedirect (resp : Response) : Bool :=
  resp.StatusCode = 301 || resp.StatusCode = 302 || resp.StatusCode = 303 ||
    resp.StatusCode = 307 || resp.StatusCode = 308

/-- Where `http.Client.Do` goes next after a response: the `Location` of a
    response with a redirect status; `none` when the response is delivered to
    the caller as it is (any other status, or no `Location` header). -/
def http.redirectLocation (resp : Response) : Option String :=
  if http.shouldRedirect resp then
    if resp.Header.Get "Location" = "" then none else some (resp.Header.Get "Location")
  else
    none

/-- The location a reply sends the client to, when the client follows it. -/
def ServerReply.followed : ServerReply → Option String
  | .response resp => http.redirectLocation resp
  | .failure _ => none

/-- Whether a reply is a redirect the client follows. -/
def ServerReply.isRedirect (reply : ServerReply) : Bool :=
  reply.followed.isSome

/-- Severity of a `tflog` event. -/
inductive Level where
  | debug
  | warn
  | error
deriving DecidableEq, Repr

/-- What a run does to the outside world, in order. -/
inductive Effect where
  | log (ctx : Context) (level : Level) (msg : String)
  | newRequest (method : String) (url : String) (body : Bytes)
  | roundTrip (transport : Transport) (timeout : Int) (req : HttpRequest)
  | bodyClosed
deriving DecidableEq, Repr

/-- Everything the standard library and the network answer during one call.
    `server` is the scripted remote side: its k-th entry answers the k-th
    request put on the wire; when the script is exhausted the round trip
    fails with `noReply`. -/
structure Env where
  SystemCertPool : Option CertPool × Option String
  AppendCertsFromPEM : CertPool → String → CertPool × Bool
  jsonMarshal : AnyValue → Except String Bytes
  newRequestErr : String → String → Option String
  redirectRequest : HttpRequest → List HttpRequest → String → HttpRequest
  urlError : String → String → String → String
  server : List (HttpRequest → ServerReply)
  noReply : String
  fmtRequest : RancherHttpRequest → String
  fmtElapsed : String
  fmtHeader : Header → String
  fmtBody : BodyStream → String

/-- A Go call either returns or panics. -/
inductive Go (α : Type) where
  | returned (value : α)
  | panicked (reason : String)
deriving DecidableEq, Repr

/-- Return values and effects of one call. -/
structure Outcome (α : Type) where
  result : Go α
  trace : List Effect

/-- The requests handed to the transport during a run, in order. -/
def sentRequests : List Effect → List HttpRequest
  | [] => []
  | .roundTrip _ _ req :: rest => req :: sentRequests rest
  | _ :: rest => sentRequests rest

/-- The transports used for the round trips of a run, in order. -/
def usedTransports : List Effect → List Transport
  | [] => []
  | .roundTrip t _ _ :: rest => t :: usedTransports rest
  | _ :: rest => usedTransports rest

/-- The requests built with `http.NewRequest` during a run. -/
def builtRequests : List Effect → List (String × String × Bytes)
  | [] => []
  | .newRequest m u b :: rest => (m, u, b) :: builtRequests rest
  | _ :: rest => builtRequests rest

/-- The messages logged at error level during a run. -/
def errorLogs : List Effect → List String
  | [] => []
  | .log _ .error msg :: rest => msg :: errorLogs rest
  | _ :: rest => errorLogs rest

/-! ## Operations -/

/-- Go `len` of a string: its length in bytes. -/
def len (s : String) : Nat := s.utf8ByteSize

/-- Model of `fmt.Sprintf("%d", n)` for an `int`. -/
def fmtInt (n : Int) : String := toString n

/-- Source: the closure `MaxRedirectCheckFunction` of `DoRequest` (lines
    85 to 95), with the captured `ctx` and `c` as arguments. Returns the
    error, the upcoming request as the closure leaves it, and the log events
    emitted. -/
def MaxRedirectCheckFunction (ctx : Context) (c : RancherHttpClient)
    (req : HttpRequest) (via : List HttpRequest) :
    Option String × HttpRequest × List Effect :=
  if (via.length : Int) ≥ c.MaxRedirects then
    (some ("Stopped after " ++ fmtInt c.MaxRedirects ++ " redirects"), req,
      [.log ctx .error ("Stopped after " ++ fmtInt c.MaxRedirects ++ " redirects")])
  else if len c.Token > 0 then
    (none, { req with Header := req.Header.Add "Authorization" ("Bearer " ++ c.Token) }, [])
  else
    (none, req, [])

/-- Model of `http.NewRequest`: fails when the library rejects the method or
    the URL, otherwise a request with an empty header; an empty method means
    GET. -/
def http.NewRequest (E : Env) (method url : String) (body : Bytes) :
    Except String HttpRequest :=
  match E.newRequestErr method url with
  | some e => .error e
  | none => .ok ⟨if method = "" then "GET" else method, url, body, []⟩

/-- Model of the loop of `http.Client.Do`. `req` is the request about to be
    sent, `via` the requests made already (oldest first), the list argument
    what is left of the server script. Whether a response is delivered or
    followed is computed from its status code and `Location` header. Before a
    redirect is followed the upcoming request is built by the library and
    handed to `CheckRedirect` together with the requests made so far; an
    error from the callback ends the call with a `*url.Error` around it. -/
def http.Client.loop (E : Env) (transport : Transport) (timeout : Int)
    (CheckRedirect : HttpRequest → List HttpRequest → Option String × HttpRequest × List Effect)
    (ireq : HttpRequest) :
    List (HttpRequest → ServerReply) → HttpRequest → List HttpRequest →
      Except String Response × List Effect
  | [], req, _ =>
      (.error (E.urlError ireq.Method req.URL E.noReply), [.roundTrip transport timeout req])
  | answer :: script, req, via =>
      match answer req with
      | .failure e =>
          (.error (E.urlError ireq.Method req.URL e), [.roundTrip transport timeout req])
      | .response resp =>
          match http.redirectLocation resp with
          | none =>
              (.ok resp, [.roundTrip transport timeout req])
          | some location =>
              let made := via ++ [req]
              let upcoming := E.redirectRequest ireq made location
              match CheckRedirect upcoming made with
              | (some e, _, logs) =>
                  (.error (E.urlError ireq.Method location e),
                    [.roundTrip transport timeout req] ++ logs)
              | (none, next, logs) =>
                  let rest :=
                    http.Client.loop E transport timeout CheckRedirect ireq script next made
                  (rest.1, [.roundTrip transport timeout req] ++ logs ++ rest.2)

/-- Model of `http.Client.Do` for a client with the given `Transport`,
    `Timeout` and `CheckRedirect`. -/
def http.Client.Do (E : Env) (transport : Transport) (timeout : Int)
    (CheckRedirect : HttpRequest → List HttpRequest → Option String × HttpRequest × List Effect)
    (request : HttpRequest) : Except String Response × List Effect :=
  http.Client.loop E transport timeout CheckRedirect request E.server request []

/-- Source: `DoRequest`, lines 97 to 113: the certificate pool that goes into
    the TLS configuration. `rootCAs` is a `*x509.CertPool`; the error of
    `x509.SystemCertPool()` is dropped by the code; calling
    `AppendCertsFromPEM` on a nil pool panics. -/
def DoRequest.rootCAs (ctx : Context) (c : RancherHttpClient) (E : Env) :
    Outcome (Option CertPool) :=
  let rootCAs : Option CertPool :=
    if c.IgnoreSystemCA then
      some NewCertPool
    else
      let looked := E.SystemCertPool.1
      if looked = none then some NewCertPool else looked
  if c.CACert ≠ "" then
    match rootCAs with
    | none => ⟨.panicked "nil pointer dereference", []⟩
    | some pool =>
        let appended := E.AppendCertsFromPEM pool c.CACert
        ⟨.returned (some appended.1),
          if !appended.2 then [.log ctx .warn "No certs appended, using system certs only"]
          else []⟩
  else
    ⟨.returned rootCAs, []⟩

/-- Source: `DoRequest`, lines 131 to 141: the bytes of the request body. -/
def DoRequest.reqBody (r : RancherHttpRequest) (E : Env) : Except String Bytes :=
  match r.Body with
  | some body => E.jsonMarshal body
  | none => .ok []

/-- Source: `DoRequest`, lines 149 to 155: caller headers are merged, then
    the bearer token is added. -/
def DoRequest.addHeaders (r : RancherHttpRequest) (c : RancherHttpClient)
    (request : HttpRequest) : HttpRequest :=
  let merged := r.Headers.foldl
    (fun (q : HttpRequest) kv => { q with Header := q.Header.Add kv.1 kv.2 }) request
  if len c.Token > 0 then
    { merged with Header := merged.Header.Add "Authorization" ("Bearer " ++ c.Token) }
  else
    merged

/-- Source: `(r *RancherHttpRequest) DoRequest(ctx, rc)`. -/
def RancherHttpRequest.DoRequest (r : RancherHttpRequest) (ctx : Context)
    (rc : RancherClient) (E : Env) : Outcome (Option Bytes × Option String) :=
  match rc with
  | .other _ =>
      ⟨.returned (none, some "Doing request: invalid rancher client type"),
        [.log ctx .error "Doing request: invalid rancher client type"]⟩
  | .httpClient cptr =>
    if r.Endpoint = "" then
      ⟨.returned (none, some "Doing request: URL is nil"),
        [.log ctx .error "Doing request: URL is nil"]⟩
    else
      let t0 := [Effect.log ctx .debug ("Request Object: " ++ E.fmtRequest r)]
      match cptr with
      | none => ⟨.panicked "nil pointer dereference", t0⟩
      | some c =>
        match DoRequest.rootCAs ctx c E with
        | ⟨.panicked reason, t1⟩ => ⟨.panicked reason, t0 ++ t1⟩
        | ⟨.returned rootCAs, t1⟩ =>
          let tlsConfig : TLSConfig := ⟨c.Insecure, rootCAs⟩
          let transport : Transport := ⟨tlsConfig, true⟩
          match DoRequest.reqBody r E with
          | .error e =>
              ⟨.returned (none, some ("Doing request: error marshalling body: " ++ e)),
                t0 ++ t1 ++
                  [.log ctx .error ("Doing request: error marshalling body: " ++ e)]⟩
          | .ok reqBody =>
            match http.NewRequest E r.Method r.Endpoint reqBody with
            | .error e =>
                ⟨.returned (none, some ("Doing request: " ++ e)),
                  t0 ++ t1 ++ [.newRequest r.Method r.Endpoint reqBody,
                    .log ctx .error ("Doing request: " ++ e)]⟩
            | .ok built =>
              let request := DoRequest.addHeaders r c built
              let done := http.Client.Do E transport c.Timeout
                (MaxRedirectCheckFunction ctx c) request
              match done.1 with
              | .error e =>
                  ⟨.returned (none, some ("Doing request: " ++ e)),
                    t0 ++ t1 ++ [.newRequest r.Method r.Endpoint reqBody] ++ done.2 ++
                      [.log ctx .error ("Doing request: " ++ e)]⟩
              | .ok resp =>
                  ⟨.returned (some resp.Body.data, resp.Body.readErr),
                    t0 ++ t1 ++ [.newRequest r.Method r.Endpoint reqBody] ++ done.2 ++
                      [.log ctx .debug ("Response Time: " ++ E.fmtElapsed ++ " ms"),
                       .log ctx .debug ("Response Status: " ++ resp.Status),
                       .log ctx .debug ("Response Headers: " ++ E.fmtHeader resp.Header),
                       .log ctx .debug ("Response Body: " ++ E.fmtBody resp.Body),
                       .bodyClosed]⟩

/-- Source: `type RancherRequest interface`, as used here: anything with a
    `DoRequest` method. `σ` is the state of the world the implementation acts
    on. -/
structure RancherRequest (σ : Type) where
  DoRequest : Context → RancherClient → σ → Go (Option Bytes × Option String) × σ

/-- Source: `var _ RancherRequest = &RancherHttpRequest{}`: the HTTP request
    as an implementation of the interface; the world is the effect trace. -/
def RancherHttpRequest.asRancherRequest (r : RancherHttpRequest) (E : Env) :
    RancherRequest (List Effect) :=
  ⟨fun ctx rc w => ((r.DoRequest ctx rc E).result, w ++ (r.DoRequest ctx rc E).trace)⟩

/-- An implementation instrumented with a counter of `DoRequest` calls. -/
def RancherRequest.counting {σ : Type} (r : RancherRequest σ) : RancherRequest (σ × Nat) :=
  ⟨fun ctx rc w => ((r.DoRequest ctx rc w.1).1, ((r.DoRequest ctx rc w.1).2, w.2 + 1))⟩

/-- Source: `(c *RancherHttpClient) Create(ctx, r)`. -/
def RancherHttpClient.Create {σ : Type} (c : Option RancherHttpClient) (ctx : Context)
    (r : RancherRequest σ) (w : σ) : Go (Option String) × σ :=
  match r.DoRequest ctx (.httpClient c) w with
  | (.returned (_, err), w') => (.returned err, w')
  | (.panicked reason, w') => (.panicked reason, w')

/-- Source: `(c *RancherHttpClient) Read(ctx, r)`. -/
def RancherHttpClient.Read {σ : Type} (c : Option RancherHttpClient) (ctx : Context)
    (r : RancherRequest σ) (w : σ) : Go (Option Bytes × Option String) × σ :=
  r.DoRequest ctx (.httpClient c) w

/-- Source: `(c *RancherHttpClient) Update(ctx, r)`. -/
def RancherHttpClient.Update {σ : Type} (c : Option RancherHttpClient) (ctx : Context)
    (r : RancherRequest σ) (w : σ) : Go (Option String) × σ :=
  match r.DoRequest ctx (.httpClient c) w with
  | (.returned (_, err), w') => (.returned err, w')
  | (.panicked reason, w') => (.panicked reason, w')

/-- Source: `(c *RancherHttpClient) Delete(ctx, r)`. -/
def RancherHttpClient.Delete {σ : Type} (c : Option RancherHttpClient) (ctx : Context)
    (r : RancherRequest σ) (w : σ) : Go (Option String) × σ :=
  match r.DoRequest ctx (.httpClient c) w with
  | (.returned (_, err), w') => (.returned err, w')
  | (.panicked reason, w') => (.panicked reason, w')

/-! ## Vocabulary of the statements -/

/-- The first `m` entries of a server script exist and answer every request
    with a redirect. -/
def leadingRedirects : Nat → List (HttpRequest → ServerReply) → Prop
  | 0, _ => True
  | _ + 1, [] => False
  | m + 1, answer :: script =>
      (∀ q, (answer q).isRedirect = true) ∧ leadingRedirects m script

/-- The first `k` entries of a server script answer every request with a
    redirect and the next entry answers every request with `resp`, which is
    not a redirect the client follows. -/
def redirectsThen : Nat → Response → List (HttpRequest → ServerReply) → Prop
  | _, _, [] => False
  | 0, resp, answer :: _ =>
      http.redirectLocation resp = none ∧ ∀ q, answer q = .response resp
  | k + 1, resp, answer :: script =>
      (∀ q, (answer q).isRedirect = true) ∧ redirectsThen k resp script

/-! ## A concrete environment

Used to evaluate the definitions on concrete calls. -/

/-- A response with status 200 and the given body, read without error. -/
def ok200 (body : Bytes) : Response := ⟨200, "200 OK", [], ⟨body, none⟩⟩

/-- A response with status 302 that sends the client to `location`. -/
def found (location : String) : Response :=
  ⟨302, "302 Found", [("Location", location)], ⟨[], none⟩⟩

/-- An environment with a one-certificate system pool, a PEM parser that
    accepts only the text `PEM`, a marshaller that rejects the value with id
    0, a library that carries the headers of the initial request over to a
    redirected request and drops the body, and the given server script. -/
def demoEnv (server : List (HttpRequest → ServerReply)) : Env :=
  { SystemCertPool := (some ⟨["system-root"]⟩, none)
    AppendCertsFromPEM := fun pool pem =>
      if pem = "PEM" then (⟨pool.certs ++ ["extra"]⟩, true) else (pool, false)
    jsonMarshal := fun v =>
      if v.id = 0 then .error "json: unsupported type: chan int" else .ok [123, 125]
    newRequestErr := fun method _ =>
      if method = "BAD METHOD" then some "net/http: invalid method" else none
    redirectRequest := fun ireq _ location => ⟨ireq.Method, location, [], ireq.Header⟩
    urlError := fun method url err =>
      (if method = "" ∨ method = "GET" then "Get"
        else if method = "POST" then "Post" else method)
        ++ " \"" ++ url ++ "\": " ++ err
    server := server
    noReply := "EOF"
    fmtRequest := fun r => r.Method ++ " " ++ r.Endpoint
    fmtElapsed := "1.000000"
    fmtHeader := fun _ => "http.Header"
    fmtBody := fun _ => "body" }

/-- A client with a token and the given redirect limit. -/
def demoClient (maxRedirects : Int) : RancherHttpClient :=
  NewRancherHttpClient "https://rancher.example" "" false false "tok" maxRedirects 30000000000

/-- A GET request without a body and with one caller header. -/
def demoRequest : RancherHttpRequest :=
  ⟨"GET", "https://rancher.example/v3", none, [("Accept", "application/json")]⟩

/-! ## Basic facts -/

theorem len_pos_iff (s : String) : 0 < len s ↔ s ≠ "" := by
  cases s with
  | mk cs =>
    cases cs with
    | nil => simp [len, String.utf8ByteSize, String.utf8ByteSize.go]
    | cons a as =>
      simp only [len, String.utf8ByteSize, String.utf8ByteSize.go]
      constructor
      · intro _ h
        exact absurd (congrArg String.data h) (by simp)
      · intro _
        exact Nat.lt_of_lt_of_le (Char.utf8Size_pos a) (Nat.le_add_left _ _)

theorem sentRequests_append (a b : List Effect) :
    sentRequests (a ++ b) = sentRequests a ++ sentRequests b := by
  induction a with
  | nil => rfl
  | cons e rest ih => cases e <;> simp [sentRequests, ih]

theorem usedTransports_append (a b : List Effect) :
    usedTransports (a ++ b) = usedTransports a ++ usedTransports b := by
  induction a with
  | nil => rfl
  | cons e rest ih => cases e <;> simp [usedTransports, ih]

theorem builtRequests_append (a b : List Effect) :
    builtRequests (a ++ b) = builtRequests a ++ builtRequests b := by
  induction a with
  | nil => rfl
  | cons e rest ih => cases e <;> simp [builtRequests, ih]

theorem errorLogs_append (a b : List Effect) :
    errorLogs (a ++ b) = errorLogs a ++ errorLogs b := by
  induction a with
  | nil => rfl
  | cons e rest ih =>
    cases e with
    | log ctx level msg => cases level <;> simp [errorLogs, ih]
    | newRequest m u b => simp [errorLogs, ih]
    | roundTrip t d q => simp [errorLogs, ih]
    | bodyClosed => simp [errorLogs, ih]

/-- The pool block of `DoRequest` never panics and never yields a nil pool. -/
theorem rootCAs_returned (ctx : Context) (c : RancherHttpClient) (E : Env) :
    ∃ pool trace, DoRequest.rootCAs ctx c E = ⟨.returned (some pool), trace⟩ ∧
      sentRequests trace = [] ∧ builtRequests trace = [] ∧ errorLogs trace = [] ∧
      usedTransports trace = [] := by
  unfold DoRequest.rootCAs
  by_cases hca : c.CACert = ""
  · by_cases hig : c.IgnoreSystemCA = true
    · exact ⟨NewCertPool, [], by simp [hca, hig], rfl, rfl, rfl, rfl⟩
    · cases hsys : E.SystemCertPool.1 with
      | none => exact ⟨NewCertPool, [], by simp [hca, hig, hsys], rfl, rfl, rfl, rfl⟩
      | some p => exact ⟨p, [], by simp [hca, hig, hsys], rfl, rfl, rfl, rfl⟩
  · by_cases hig : c.IgnoreSystemCA = true
    · refine ⟨_, _, by simp [hca, hig]; exact ⟨rfl, rfl⟩, ?_, ?_, ?_, ?_⟩ <;>
        cases (E.AppendCertsFromPEM NewCertPool c.CACert).2 <;> rfl
    · cases hsys : E.SystemCertPool.1 with
      | none =>
        refine ⟨_, _, by simp [hca, hig, hsys]; exact ⟨rfl, rfl⟩, ?_, ?_, ?_, ?_⟩ <;>
          cases (E.AppendCertsFromPEM NewCertPool c.CACert).2 <;> rfl
      | some p =>
        refine ⟨_, _, by simp [hca, hig, hsys]; exact ⟨rfl, rfl⟩, ?_, ?_, ?_, ?_⟩ <;>
          cases (E.AppendCertsFromPEM p c.CACert).2 <;> rfl

theorem check_stop (ctx : Context) (c : RancherHttpClient) (req : HttpRequest)
    (via : List HttpRequest) (h : c.MaxRedirects ≤ (via.length : Int)) :
    MaxRedirectCheckFunction ctx c req via =
      (some ("Stopped after " ++ fmtInt c.MaxRedirects ++ " redirects"), req,
        [.log ctx .error ("Stopped after " ++ fmtInt c.MaxRedirects ++ " redirects")]) := by
  simp [MaxRedirectCheckFunction, h]

theorem check_pass (ctx : Context) (c : RancherHttpClient) (req : HttpRequest)
    (via : List HttpRequest) (h : (via.length : Int) < c.MaxRedirects) :
    MaxRedirectCheckFunction ctx c req via =
      (none,
        if len c.Token > 0 then
          { req with Header := req.Header.Add "Authorization" ("Bearer " ++ c.Token) }
        else req, []) := by
  have h' : ¬ c.MaxRedirects ≤ (via.length : Int) := not_le.mpr h
  unfold MaxRedirectCheckFunction
  by_cases ht : len c.Token > 0 <;> simp [h', ht]

section loop
variable (E : Env) (transport : Transport) (timeout : Int)
  (check : HttpRequest → List HttpRequest → Option String × HttpRequest × List Effect)
  (ireq : HttpRequest)

theorem loop_response (answer : HttpRequest → ServerReply)
    (script : List (HttpRequest → ServerReply)) (req : HttpRequest) (via : List HttpRequest)
    (resp : Response) (h : answer req = .response resp)
    (hloc : http.redirectLocation resp = none) :
    http.Client.loop E transport timeout check ireq (answer :: script) req via =
      (.ok resp, [.roundTrip transport timeout req]) := by
  simp [http.Client.loop, h, hloc]

theorem loop_failure (answer : HttpRequest → ServerReply)
    (script : List (HttpRequest → ServerReply)) (req : HttpRequest) (via : List HttpRequest)
    (e : String) (h : answer req = .failure e) :
    http.Client.loop E transport timeout check ireq (answer :: script) req via =
      (.error (E.urlError ireq.Method req.URL e), [.roundTrip transport timeout req]) := by
  simp [http.Client.loop, h]

theorem loop_redirect_stop (answer : HttpRequest → ServerReply)
    (script : List (HttpRequest → ServerReply)) (req : HttpRequest) (via : List HttpRequest)
    (location e : String) (q : HttpRequest) (logs : List Effect)
    (h : (answer req).followed = some location)
    (hc : check (E.redirectRequest ireq (via ++ [req]) location) (via ++ [req]) =
      (some e, q, logs)) :
    http.Client.loop E transport timeout check ireq (answer :: script) req via =
      (.error (E.urlError ireq.Method location e),
        [.roundTrip transport timeout req] ++ logs) := by
  cases hans : answer req with
  | failure err => simp [hans, ServerReply.followed] at h
  | response resp =>
    rw [hans] at h
    simp only [ServerReply.followed] at h
    simp [http.Client.loop, hans, h, hc]

theorem loop_redirect_follow (answer : HttpRequest → ServerReply)
    (script : List (HttpRequest → ServerReply)) (req : HttpRequest) (via : List HttpRequest)
    (location : String) (next : HttpRequest) (logs : List Effect)
    (h : (answer req).followed = some location)
    (hc : check (E.redirectRequest ireq (via ++ [req]) location) (via ++ [req]) =
      (none, next, logs)) :
    http.Client.loop E transport timeout check ireq (answer :: script) req via =
      ((http.Client.loop E transport timeout check ireq script next (via ++ [req])).1,
        [.roundTrip transport timeout req] ++ logs ++
          (http.Client.loop E transport timeout check ireq script next (via ++ [req])).2) := by
  cases hans : answer req with
  | failure err => simp [hans, ServerReply.followed] at h
  | response resp =>
    rw [hans] at h
    simp only [ServerReply.followed] at h
    simp [http.Client.loop, hans, h, hc]

end loop

theorem DoRequest_exchange (r : RancherHttpRequest) (ctx : Context) (c : RancherHttpClient)
    (E : Env) (body : Bytes) (built : HttpRequest) (hE : r.Endpoint ≠ "")
    (hb : DoRequest.reqBody r E = .ok body)
    (hn : http.NewRequest E r.Method r.Endpoint body = .ok built) :
    ∃ pool t1, DoRequest.rootCAs ctx c E = ⟨.returned (some pool), t1⟩ ∧
      r.DoRequest ctx (.httpClient (some c)) E =
        match (http.Client.Do E ⟨⟨c.Insecure, some pool⟩, true⟩ c.Timeout
            (MaxRedirectCheckFunction ctx c) (DoRequest.addHeaders r c built)).1 with
        | .error e =>
            ⟨.returned (none, some ("Doing request: " ++ e)),
              [Effect.log ctx .debug ("Request Object: " ++ E.fmtRequest r)] ++ t1 ++
                [.newRequest r.Method r.Endpoint body] ++
                (http.Client.Do E ⟨⟨c.Insecure, some pool⟩, true⟩ c.Timeout
                  (MaxRedirectCheckFunction ctx c) (DoRequest.addHeaders r c built)).2 ++
                [.log ctx .error ("Doing request: " ++ e)]⟩
        | .ok resp =>
            ⟨.returned (some resp.Body.data, resp.Body.readErr),
              [Effect.log ctx .debug ("Request Object: " ++ E.fmtRequest r)] ++ t1 ++
                [.newRequest r.Method r.Endpoint body] ++
                (http.Client.Do E ⟨⟨c.Insecure, some pool⟩, true⟩ c.Timeout
                  (MaxRedirectCheckFunction ctx c) (DoRequest.addHeaders r c built)).2 ++
                [.log ctx .debug ("Response Time: " ++ E.fmtElapsed ++ " ms"),
                 .log ctx .debug ("Response Status: " ++ resp.Status),
                 .log ctx .debug ("Response Headers: " ++ E.fmtHeader resp.Header),
                 .log ctx .debug ("Response Body: " ++ E.fmtBody resp.Body),
                 .bodyClosed]⟩ := by
  obtain ⟨pool, t1, hp, -⟩ := rootCAs_returned ctx c E
  refine ⟨pool, t1, hp, ?_⟩
  unfold RancherHttpRequest.DoRequest
  simp only [hE, if_false, hp, hb, hn]

theorem isRedirect_iff (reply : ServerReply) :
    reply.isRedirect = true ↔ ∃ location, reply.followed = some location := by
  simp [ServerReply.isRedirect, Option.isSome_iff_exists]

/-- The loop with the callback of `DoRequest`: the first request on the wire
    is the one the loop was entered with, every round trip uses the one
    transport, and nothing is built. -/
theorem loop_trace (E : Env) (transport : Transport) (timeout : Int) (ctx : Context)
    (c : RancherHttpClient) (ireq : HttpRequest)
    (script : List (HttpRequest → ServerReply)) (req : HttpRequest) (via : List HttpRequest) :
    (∃ tail, sentRequests (http.Client.loop E transport timeout
        (MaxRedirectCheckFunction ctx c) ireq script req via).2 = req :: tail) ∧
    (∀ t ∈ usedTransports (http.Client.loop E transport timeout
        (MaxRedirectCheckFunction ctx c) ireq script req via).2, t = transport) ∧
    builtRequests (http.Client.loop E transport timeout
        (MaxRedirectCheckFunction ctx c) ireq script req via).2 = [] := by
  induction script generalizing req via with
  | nil => simp [http.Client.loop, sentRequests, usedTransports, builtRequests]
  | cons answer script ih =>
    cases hans : answer req with
    | failure e =>
      rw [loop_failure _ _ _ _ _ _ _ _ _ _ hans]
      simp [sentRequests, usedTransports, builtRequests]
    | response resp =>
      cases hloc : http.redirectLocation resp with
      | none =>
        rw [loop_response _ _ _ _ _ _ _ _ _ _ hans hloc]
        simp [sentRequests, usedTransports, builtRequests]
      | some location =>
        have hfol : (answer req).followed = some location := by
          rw [hans]
          exact hloc
        by_cases hstop : c.MaxRedirects ≤ ((via ++ [req]).length : Int)
        · rw [loop_redirect_stop _ _ _ _ _ _ _ _ _ _ _ _ _ hfol (check_stop ctx c _ _ hstop)]
          simp [sentRequests, usedTransports, builtRequests]
        · rw [loop_redirect_follow _ _ _ _ _ _ _ _ _ _ _ _ hfol
            (check_pass ctx c _ _ (not_le.mp hstop))]
          obtain ⟨-, h2, h3⟩ := ih
            (if len c.Token > 0 then
              { E.redirectRequest ireq (via ++ [req]) location with
                Header := (E.redirectRequest ireq (via ++ [req]) location).Header.Add
                  "Authorization" ("Bearer " ++ c.Token) }
            else E.redirectRequest ireq (via ++ [req]) location) (via ++ [req])
          refine ⟨⟨_, rfl⟩, ?_, ?_⟩
          · intro t ht
            simp only [List.singleton_append, List.append_nil, List.cons_append, List.nil_append,
              usedTransports, List.mem_cons] at ht
            rcases ht with rfl | ht
            · rfl
            · exact h2 t ht
          · simp [builtRequests, builtRequests_append, h3]

/-- Once the requests made plus the redirects still to come reach the limit,
    the call ends with the callback error, and no more than `m` requests go on
    the wire. -/
theorem loop_stops (E : Env) (transport : Transport) (timeout : Int) (ctx : Context)
    (c : RancherHttpClient) (ireq : HttpRequest)
    (script : List (HttpRequest → ServerReply)) (req : HttpRequest) (via : List HttpRequest)
    (m : Nat) (hm : 1 ≤ m) (hlen : c.MaxRedirects ≤ ((via.length + m : Nat) : Int))
    (hred : leadingRedirects m script) :
    (∃ location, (http.Client.loop E transport timeout
        (MaxRedirectCheckFunction ctx c) ireq script req via).1 =
          .error (E.urlError ireq.Method location
            ("Stopped after " ++ fmtInt c.MaxRedirects ++ " redirects"))) ∧
    (sentRequests (http.Client.loop E transport timeout
        (MaxRedirectCheckFunction ctx c) ireq script req via).2).length ≤ m ∧
    ("Stopped after " ++ fmtInt c.MaxRedirects ++ " redirects") ∈
      errorLogs (http.Client.loop E transport timeout
        (MaxRedirectCheckFunction ctx c) ireq script req via).2 := by
  induction script generalizing req via m with
  | nil =>
    cases m with
    | zero => omega
    | succ k => exact absurd hred (by simp [leadingRedirects])
  | cons answer script ih =>
    cases m with
    | zero => omega
    | succ k =>
      obtain ⟨hfirst, hrest⟩ := hred
      obtain ⟨location, hans⟩ := (isRedirect_iff _).mp (hfirst req)
      by_cases hstop : c.MaxRedirects ≤ ((via ++ [req]).length : Int)
      · rw [loop_redirect_stop _ _ _ _ _ _ _ _ _ _ _ _ _ hans (check_stop ctx c _ _ hstop)]
        refine ⟨⟨location, rfl⟩, ?_, ?_⟩
        · simp [sentRequests]
        · simp [errorLogs]
      · rw [loop_redirect_follow _ _ _ _ _ _ _ _ _ _ _ _ hans
          (check_pass ctx c _ _ (not_le.mp hstop))]
        have hlen1 : (via ++ [req]).length = via.length + 1 := by simp
        have hk : 1 ≤ k := by
          rw [hlen1] at hstop
          push_cast at hstop hlen
          omega
        have hlen' : c.MaxRedirects ≤ (((via ++ [req]).length + k : Nat) : Int) := by
          rw [hlen1]
          push_cast at hlen ⊢
          omega
        obtain ⟨h1, h2, h3⟩ := ih _ (via ++ [req]) k hk hlen' hrest
        refine ⟨h1, ?_, ?_⟩
        · simp only [List.singleton_append, List.append_nil, List.cons_append, List.nil_append,
            sentRequests, List.length_cons]
          exact Nat.succ_le_succ h2
        · simp only [List.singleton_append, List.append_nil, List.cons_append, List.nil_append,
            errorLogs]
          exact h3

/-- With a token, every request the loop puts on the wire carries the bearer
    value, provided the request it was entered with does. -/
theorem loop_auth (E : Env) (transport : Transport) (timeout : Int) (ctx : Context)
    (c : RancherHttpClient) (ireq : HttpRequest) (htok : c.Token ≠ "")
    (script : List (HttpRequest → ServerReply)) (req : HttpRequest) (via : List HttpRequest)
    (hreq : ("Bearer " ++ c.Token) ∈ req.Header.Values "Authorization") :
    ∀ q ∈ sentRequests (http.Client.loop E transport timeout
        (MaxRedirectCheckFunction ctx c) ireq script req via).2,
      ("Bearer " ++ c.Token) ∈ q.Header.Values "Authorization" := by
  induction script generalizing req via with
  | nil => simpa [http.Client.loop, sentRequests] using hreq
  | cons answer script ih =>
    cases hans : answer req with
    | failure e =>
      rw [loop_failure _ _ _ _ _ _ _ _ _ _ hans]
      simpa [sentRequests] using hreq
    | response resp =>
      cases hloc : http.redirectLocation resp with
      | none =>
        rw [loop_response _ _ _ _ _ _ _ _ _ _ hans hloc]
        simpa [sentRequests] using hreq
      | some location =>
        have hfol : (answer req).followed = some location := by
          rw [hans]
          exact hloc
        by_cases hstop : c.MaxRedirects ≤ ((via ++ [req]).length : Int)
        · rw [loop_redirect_stop _ _ _ _ _ _ _ _ _ _ _ _ _ hfol (check_stop ctx c _ _ hstop)]
          simpa [sentRequests] using hreq
        · rw [loop_redirect_follow _ _ _ _ _ _ _ _ _ _ _ _ hfol
            (check_pass ctx c _ _ (not_le.mp hstop))]
          have hpos : len c.Token > 0 := (len_pos_iff _).mpr htok
          intro q hq
          simp only [List.singleton_append, List.append_nil, List.cons_append, List.nil_append,
            sentRequests, List.mem_cons] at hq
          rcases hq with rfl | hq
          · exact hreq
          · refine ih _ (via ++ [req]) ?_ q hq
            simp [hpos, Header.Values, Header.Add]

theorem addHeaders_fold (hs : List (String × String)) (request : HttpRequest) :
    hs.foldl (fun (q : HttpRequest) kv => { q with Header := q.Header.Add kv.1 kv.2 }) request =
      { request with Header := request.Header ++ hs } := by
  induction hs generalizing request with
  | nil => simp
  | cons kv rest ih =>
    rw [List.foldl_cons, ih]
    simp [Header.Add]

theorem addHeaders_with_token (r : RancherHttpRequest) (c : RancherHttpClient)
    (request : HttpRequest) (htok : c.Token ≠ "") :
    DoRequest.addHeaders r c request =
      { request with
        Header := request.Header ++ r.Headers ++ [("Authorization", "Bearer " ++ c.Token)] } := by
  have hpos : len c.Token > 0 := (len_pos_iff _).mpr htok
  simp only [DoRequest.addHeaders, addHeaders_fold, hpos, if_true]
  simp [Header.Add]

theorem addHeaders_keeps (r : RancherHttpRequest) (c : RancherHttpClient)
    (request : HttpRequest) :
    (DoRequest.addHeaders r c request).Body = request.Body ∧
    (DoRequest.addHeaders r c request).Method = request.Method ∧
    (DoRequest.addHeaders r c request).URL = request.URL := by
  unfold DoRequest.addHeaders
  by_cases hpos : len c.Token > 0 <;> simp [addHeaders_fold, hpos]

theorem NewRequest_ok (E : Env) (method url : String) (body : Bytes) (built : HttpRequest)
    (h : http.NewRequest E method url body = .ok built) :
    built = ⟨if method = "" then "GET" else method, url, body, []⟩ := by
  unfold http.NewRequest at h
  cases hv : E.newRequestErr method url with
  | none => rw [hv] at h; injection h with h; exact h.symm
  | some e => rw [hv] at h; cases h

theorem DoRequest_marshal_fails (r : RancherHttpRequest) (ctx : Context)
    (c : RancherHttpClient) (E : Env) (e : String) (hE : r.Endpoint ≠ "")
    (hb : DoRequest.reqBody r E = .error e) :
    ∃ pool t1, DoRequest.rootCAs ctx c E = ⟨.returned (some pool), t1⟩ ∧
      r.DoRequest ctx (.httpClient (some c)) E =
        ⟨.returned (none, some ("Doing request: error marshalling body: " ++ e)),
          [Effect.log ctx .debug ("Request Object: " ++ E.fmtRequest r)] ++ t1 ++
            [.log ctx .error ("Doing request: error marshalling body: " ++ e)]⟩ := by
  obtain ⟨pool, t1, hp, -⟩ := rootCAs_returned ctx c E
  refine ⟨pool, t1, hp, ?_⟩
  unfold RancherHttpRequest.DoRequest
  simp only [hE, if_false, hp, hb]

theorem DoRequest_newRequest_fails (r : RancherHttpRequest) (ctx : Context)
    (c : RancherHttpClient) (E : Env) (body : Bytes) (e : String) (hE : r.Endpoint ≠ "")
    (hb : DoRequest.reqBody r E = .ok body)
    (hn : http.NewRequest E r.Method r.Endpoint body = .error e) :
    ∃ pool t1, DoRequest.rootCAs ctx c E = ⟨.returned (some pool), t1⟩ ∧
      r.DoRequest ctx (.httpClient (some c)) E =
        ⟨.returned (none, some ("Doing request: " ++ e)),
          [Effect.log ctx .debug ("Request Object: " ++ E.fmtRequest r)] ++ t1 ++
            [.newRequest r.Method r.Endpoint body,
              .log ctx .error ("Doing request: " ++ e)]⟩ := by
  obtain ⟨pool, t1, hp, -⟩ := rootCAs_returned ctx c E
  refine ⟨pool, t1, hp, ?_⟩
  unfold RancherHttpRequest.DoRequest
  simp only [hE, if_false, hp, hb, hn]

/-- What a call that reaches `client.Do` leaves in its trace: the requests on
    the wire and the transports are those of the `Do` run, and exactly one
    request was built. -/
theorem DoRequest_exchange_trace (r : RancherHttpRequest) (ctx : Context)
    (c : RancherHttpClient) (E : Env) (body : Bytes) (built : HttpRequest)
    (hE : r.Endpoint ≠ "") (hb : DoRequest.reqBody r E = .ok body)
    (hn : http.NewRequest E r.Method r.Endpoint body = .ok built) :
    ∃ pool, (DoRequest.rootCAs ctx c E).result = .returned (some pool) ∧
      sentRequests (r.DoRequest ctx (.httpClient (some c)) E).trace =
        sentRequests (http.Client.Do E ⟨⟨c.Insecure, some pool⟩, true⟩ c.Timeout
          (MaxRedirectCheckFunction ctx c) (DoRequest.addHeaders r c built)).2 ∧
      usedTransports (r.DoRequest ctx (.httpClient (some c)) E).trace =
        usedTransports (http.Client.Do E ⟨⟨c.Insecure, some pool⟩, true⟩ c.Timeout
          (MaxRedirectCheckFunction ctx c) (DoRequest.addHeaders r c built)).2 ∧
      builtRequests (r.DoRequest ctx (.httpClient (some c)) E).trace =
        [(r.Method, r.Endpoint, body)] := by
  obtain ⟨pool, t1, hp, hs1, hb1, -, hu1⟩ := rootCAs_returned ctx c E
  obtain ⟨pool', t1', hp', hrun⟩ := DoRequest_exchange r ctx c E body built hE hb hn
  rw [hp] at hp'
  injection hp' with hres htr
  injection hres with hres
  injection hres with hres
  subst hres
  subst htr
  refine ⟨pool, by rw [hp], ?_⟩
  obtain ⟨-, -, hbl⟩ := loop_trace E ⟨⟨c.Insecure, some pool⟩, true⟩ c.Timeout ctx c
    (DoRequest.addHeaders r c built) E.server (DoRequest.addHeaders r c built) []
  rw [hrun]
  cases hdo : (http.Client.Do E ⟨⟨c.Insecure, some pool⟩, true⟩ c.Timeout
      (MaxRedirectCheckFunction ctx c) (DoRequest.addHeaders r c built)).1 with
  | error e =>
    simp [sentRequests_append, usedTransports_append, builtRequests_append, hs1, hb1, hu1,
      sentRequests, usedTransports, builtRequests, http.Client.Do, hbl]
  | ok resp =>
    simp [sentRequests_append, usedTransports_append, builtRequests_append, hs1, hb1, hu1,
      sentRequests, usedTransports, builtRequests, http.Client.Do, hbl]

/-! ## The claims -/

/-- C8: handed a client that is not a `*RancherHttpClient` (any other dynamic
    type, the nil interface included), `DoRequest` of any request, whatever
    its endpoint, returns a nil body and the error
    `Doing request: invalid rancher client type`; it returns (no panic), the
    only effect is one error-level log event, and no request is built or put
    on the wire. -/
theorem DoRequest_invalid_client_type (r : RancherHttpRequest) (ctx : Context)
    (dynamicType : String) (E : Env) :
    (r.DoRequest ctx (.other dynamicType) E).result =
      .returned (none, some "Doing request: invalid rancher client type") ∧
    (r.DoRequest ctx (.other dynamicType) E).trace =
      [.log ctx .error "Doing request: invalid rancher client type"] ∧
    builtRequests (r.DoRequest ctx (.other dynamicType) E).trace = [] ∧
    sentRequests (r.DoRequest ctx (.other dynamicType) E).trace = [] :=
  ⟨rfl, rfl, rfl, rfl⟩

/-- C4: for a request whose `Endpoint` is the empty string and any
    `*RancherHttpClient` (a nil pointer included), `DoRequest` returns a nil
    body and the error `Doing request: URL is nil`; the only effect is one
    error-level log event: no HTTP request is built and none is sent. -/
theorem DoRequest_empty_endpoint (r : RancherHttpRequest) (ctx : Context)
    (c : Option RancherHttpClient) (E : Env) (h : r.Endpoint = "") :
    (r.DoRequest ctx (.httpClient c) E).result =
      .returned (none, some "Doing request: URL is nil") ∧
    (r.DoRequest ctx (.httpClient c) E).trace =
      [.log ctx .error "Doing request: URL is nil"] ∧
    builtRequests (r.DoRequest ctx (.httpClient c) E).trace = [] ∧
    sentRequests (r.DoRequest ctx (.httpClient c) E).trace = [] := by
  simp [RancherHttpRequest.DoRequest, h, builtRequests, sentRequests]

/-- Witness for C4: a GET request with an empty endpoint against a server
    that would answer 200. -/
theorem DoRequest_empty_endpoint_witness :
    (⟨"GET", "", none, []⟩ : RancherHttpRequest).Endpoint = "" ∧
    ((⟨"GET", "", none, []⟩ : RancherHttpRequest).DoRequest ⟨0⟩
        (.httpClient (some (demoClient 3)))
        (demoEnv [fun _ => .response (ok200 [111, 107])])).result =
      .returned (none, some "Doing request: URL is nil") ∧
    sentRequests ((⟨"GET", "", none, []⟩ : RancherHttpRequest).DoRequest ⟨0⟩
        (.httpClient (some (demoClient 3)))
        (demoEnv [fun _ => .response (ok200 [111, 107])])).trace = [] :=
  ⟨rfl,
    (DoRequest_empty_endpoint ⟨"GET", "", none, []⟩ ⟨0⟩ (some (demoClient 3))
      (demoEnv [fun _ => .response (ok200 [111, 107])]) rfl).1,
    (DoRequest_empty_endpoint ⟨"GET", "", none, []⟩ ⟨0⟩ (some (demoClient 3))
      (demoEnv [fun _ => .response (ok200 [111, 107])]) rfl).2.2.2⟩

/-- C7: when `r.DoRequest(ctx, c)` returns `(body, err)`, `Create`, `Update`
    and `Delete` return exactly `err` and drop `body`, `Read` returns
    `(body, err)` unchanged, and each verb leaves the world as one call of
    `DoRequest` leaves it; on a request that counts its `DoRequest` calls the
    counter goes up by exactly one for each verb. -/
theorem verbs_delegate_to_DoRequest {σ : Type} (c : Option RancherHttpClient) (ctx : Context)
    (r : RancherRequest σ) (w w' : σ) (body : Option Bytes) (err : Option String)
    (h : r.DoRequest ctx (.httpClient c) w = (.returned (body, err), w')) :
    RancherHttpClient.Create c ctx r w = (.returned err, w') ∧
    RancherHttpClient.Update c ctx r w = (.returned err, w') ∧
    RancherHttpClient.Delete c ctx r w = (.returned err, w') ∧
    RancherHttpClient.Read c ctx r w = (.returned (body, err), w') ∧
    ∀ n : Nat,
      RancherHttpClient.Create c ctx r.counting (w, n) = (.returned err, (w', n + 1)) ∧
      RancherHttpClient.Update c ctx r.counting (w, n) = (.returned err, (w', n + 1)) ∧
      RancherHttpClient.Delete c ctx r.counting (w, n) = (.returned err, (w', n + 1)) ∧
      RancherHttpClient.Read c ctx r.counting (w, n) =
        (.returned (body, err), (w', n + 1)) := by
  refine ⟨?_, ?_, ?_, ?_, fun n => ⟨?_, ?_, ?_, ?_⟩⟩ <;>
    simp [RancherHttpClient.Create, RancherHttpClient.Update, RancherHttpClient.Delete,
      RancherHttpClient.Read, RancherRequest.counting, h]

/-- Witness for C7: the HTTP request against a server answering 200 with a
    two-byte body. -/
theorem verbs_delegate_to_DoRequest_witness :
    (demoRequest.asRancherRequest (demoEnv [fun _ => .response (ok200 [111, 107])])).DoRequest
        ⟨0⟩ (.httpClient (some (demoClient 3))) [] =
      (.returned (some [111, 107], none),
        (demoRequest.DoRequest ⟨0⟩ (.httpClient (some (demoClient 3)))
          (demoEnv [fun _ => .response (ok200 [111, 107])])).trace) ∧
    RancherHttpClient.Create (some (demoClient 3)) ⟨0⟩
        (demoRequest.asRancherRequest (demoEnv [fun _ => .response (ok200 [111, 107])])) [] =
      (.returned none,
        (demoRequest.DoRequest ⟨0⟩ (.httpClient (some (demoClient 3)))
          (demoEnv [fun _ => .response (ok200 [111, 107])])).trace) ∧
    RancherHttpClient.Read (some (demoClient 3)) ⟨0⟩
        (demoRequest.asRancherRequest (demoEnv [fun _ => .response (ok200 [111, 107])])) [] =
      (.returned (some [111, 107], none),
        (demoRequest.DoRequest ⟨0⟩ (.httpClient (some (demoClient 3)))
          (demoEnv [fun _ => .response (ok200 [111, 107])])).trace) :=
  ⟨by decide,
    (verbs_delegate_to_DoRequest (some (demoClient 3)) ⟨0⟩
      (demoRequest.asRancherRequest (demoEnv [fun _ => .response (ok200 [111, 107])]))
      [] _ (some [111, 107]) none (by decide)).1,
    (verbs_delegate_to_DoRequest (some (demoClient 3)) ⟨0⟩
      (demoRequest.asRancherRequest (demoEnv [fun _ => .response (ok200 [111, 107])]))
      [] _ (some [111, 107]) none (by decide)).2.2.2.1⟩

/-- C5, counterexample: the server answers the request with status 302, a
    `Location` header and the body `moved`, read without a read error, and
    would answer the next request with 200 and the body `ok`. With
    `MaxRedirects = 2` the redirect is followed and `DoRequest` returns `ok`;
    with `MaxRedirects = 1` it is refused and `DoRequest` returns a nil body
    and an error. In neither run does `DoRequest` return the body of the 302
    response with a nil error. -/
theorem DoRequest_followed_redirect_body_not_returned :
    (demoRequest.DoRequest ⟨0⟩ (.httpClient (some (demoClient 2)))
        (demoEnv [fun _ => .response ⟨302, "302 Found",
            [("Location", "https://rancher.example/v3/next")],
            ⟨[109, 111, 118, 101, 100], none⟩⟩,
          fun _ => .response (ok200 [111, 107])])).result =
      .returned (some [111, 107], none) ∧
    (demoRequest.DoRequest ⟨0⟩ (.httpClient (some (demoClient 1)))
        (demoEnv [fun _ => .response ⟨302, "302 Found",
            [("Location", "https://rancher.example/v3/next")],
            ⟨[109, 111, 118, 101, 100], none⟩⟩,
          fun _ => .response (ok200 [111, 107])])).result =
      .returned (none,
        some "Doing request: Get \"https://rancher.example/v3/next\": Stopped after 1 redirects") ∧
    (demoRequest.DoRequest ⟨0⟩ (.httpClient (some (demoClient 2)))
        (demoEnv [fun _ => .response ⟨302, "302 Found",
            [("Location", "https://rancher.example/v3/next")],
            ⟨[109, 111, 118, 101, 100], none⟩⟩,
          fun _ => .response (ok200 [111, 107])])).result ≠
      .returned (some [109, 111, 118, 101, 100], none) ∧
    (demoRequest.DoRequest ⟨0⟩ (.httpClient (some (demoClient 1)))
        (demoEnv [fun _ => .response ⟨302, "302 Found",
            [("Location", "https://rancher.example/v3/next")],
            ⟨[109, 111, 118, 101, 100], none⟩⟩,
          fun _ => .response (ok200 [111, 107])])).result ≠
      .returned (some [109, 111, 118, 101, 100], none) := by
  decide

/-- C5, amended: for a request with a non-empty endpoint that marshals and is
    accepted by `http.NewRequest`. Whatever response `client.Do` delivers,
    after any redirects it followed, with whatever status code, status line
    and headers: when its body is read without a read error, `DoRequest`
    returns exactly the body bytes and a nil error, and so does `Read`; the
    status code does not appear in the result. In particular this holds for
    the response to the request itself whenever the client does not follow
    it (its status is none of 301, 302, 303, 307, 308, or it has no
    `Location`), and no response with a status of 400 or more is followed. -/
theorem DoRequest_returns_delivered_body (r : RancherHttpRequest) (ctx : Context)
    (c : RancherHttpClient) (E : Env) (body : Bytes) (built : HttpRequest)
    (hE : r.Endpoint ≠ "") (hb : DoRequest.reqBody r E = .ok body)
    (hn : http.NewRequest E r.Method r.Endpoint body = .ok built) :
    (∀ (pool : CertPool) (status : Int) (statusLine : String) (header : Header) (data : Bytes),
      (DoRequest.rootCAs ctx c E).result = .returned (some pool) →
      (http.Client.Do E ⟨⟨c.Insecure, some pool⟩, true⟩ c.Timeout
        (MaxRedirectCheckFunction ctx c) (DoRequest.addHeaders r c built)).1 =
          .ok ⟨status, statusLine, header, ⟨data, none⟩⟩ →
      (r.DoRequest ctx (.httpClient (some c)) E).result = .returned (some data, none) ∧
      (RancherHttpClient.Read (some c) ctx (r.asRancherRequest E) []).1 =
        .returned (some data, none)) ∧
    (∀ (answer : HttpRequest → ServerReply) (script : List (HttpRequest → ServerReply))
      (status : Int) (statusLine : String) (header : Header) (data : Bytes),
      E.server = answer :: script →
      answer (DoRequest.addHeaders r c built) =
        .response ⟨status, statusLine, header, ⟨data, none⟩⟩ →
      http.redirectLocation ⟨status, statusLine, header, ⟨data, none⟩⟩ = none →
      (r.DoRequest ctx (.httpClient (some c)) E).result = .returned (some data, none) ∧
      (RancherHttpClient.Read (some c) ctx (r.asRancherRequest E) []).1 =
        .returned (some data, none)) ∧
    (∀ (status : Int) (statusLine : String) (header : Header) (stream : BodyStream),
      400 ≤ status → http.redirectLocation ⟨status, statusLine, header, stream⟩ = none) := by
  have delivered : ∀ (pool : CertPool) (status : Int) (statusLine : String) (header : Header)
      (data : Bytes),
      (DoRequest.rootCAs ctx c E).result = .returned (some pool) →
      (http.Client.Do E ⟨⟨c.Insecure, some pool⟩, true⟩ c.Timeout
        (MaxRedirectCheckFunction ctx c) (DoRequest.addHeaders r c built)).1 =
          .ok ⟨status, statusLine, header, ⟨data, none⟩⟩ →
      (r.DoRequest ctx (.httpClient (some c)) E).result = .returned (some data, none) ∧
      (RancherHttpClient.Read (some c) ctx (r.asRancherRequest E) []).1 =
        .returned (some data, none) := by
    intro pool status statusLine header data hpool hdo
    obtain ⟨pool', t1, hp, hrun⟩ := DoRequest_exchange r ctx c E body built hE hb hn
    rw [hp] at hpool
    injection hpool with hpool
    injection hpool with hpool
    subst hpool
    have hres : (r.DoRequest ctx (.httpClient (some c)) E).result =
        .returned (some data, none) := by
      rw [hrun, hdo]
    exact ⟨hres,
      by simpa [RancherHttpClient.Read, RancherHttpRequest.asRancherRequest] using hres⟩
  refine ⟨delivered, ?_, ?_⟩
  · intro answer script status statusLine header data hsrv hans hloc
    obtain ⟨pool, t1, hp, -⟩ := rootCAs_returned ctx c E
    refine delivered pool status statusLine header data (by rw [hp]) ?_
    unfold http.Client.Do
    rw [hsrv, loop_response _ _ _ _ _ _ _ _ _ _ hans hloc]
  · intro status statusLine header stream hge
    have h : http.shouldRedirect ⟨status, statusLine, header, stream⟩ = false := by
      simp only [http.shouldRedirect, Bool.or_eq_false_iff, decide_eq_false_iff_not]
      omega
    simp [http.redirectLocation, h]

/-- Witness for C5, amended: a server answering 500 with the body
    `{"error":"boom"}`, and a server answering a redirect that is followed
    (limit 3) and then 404 with the body `gone`. -/
theorem DoRequest_returns_delivered_body_witness :
    (demoRequest.DoRequest ⟨0⟩ (.httpClient (some (demoClient 3)))
        (demoEnv [fun _ => .response ⟨500, "500 Internal Server Error", [],
          ⟨[123, 34, 101, 114, 114, 111, 114, 34, 58, 34, 98, 111, 111, 109, 34, 125],
            none⟩⟩])).result =
      .returned (some [123, 34, 101, 114, 114, 111, 114, 34, 58, 34, 98, 111, 111, 109, 34, 125],
        none) ∧
    (RancherHttpClient.Read (some (demoClient 3)) ⟨0⟩
        (demoRequest.asRancherRequest
          (demoEnv [fun _ => .response ⟨500, "500 Internal Server Error", [],
            ⟨[123, 34, 101, 114, 114, 111, 114, 34, 58, 34, 98, 111, 111, 109, 34, 125],
              none⟩⟩])) []).1 =
      .returned (some [123, 34, 101, 114, 114, 111, 114, 34, 58, 34, 98, 111, 111, 109, 34, 125],
        none) ∧
    (demoRequest.DoRequest ⟨0⟩ (.httpClient (some (demoClient 3)))
        (demoEnv [fun _ => .response (found "https://rancher.example/v3/next"),
          fun _ => .response ⟨404, "404 Not Found", [],
            ⟨[103, 111, 110, 101], none⟩⟩])).result =
      .returned (some [103, 111, 110, 101], none) :=
  ⟨((DoRequest_returns_delivered_body demoRequest ⟨0⟩ (demoClient 3)
      (demoEnv [fun _ => .response ⟨500, "500 Internal Server Error", [],
        ⟨[123, 34, 101, 114, 114, 111, 114, 34, 58, 34, 98, 111, 111, 109, 34, 125], none⟩⟩])
      [] ⟨"GET", "https://rancher.example/v3", [], []⟩ (by decide) rfl rfl).2.1
      _ [] 500 "500 Internal Server Error" []
      [123, 34, 101, 114, 114, 111, 114, 34, 58, 34, 98, 111, 111, 109, 34, 125]
      rfl rfl (by decide)).1,
   ((DoRequest_returns_delivered_body demoRequest ⟨0⟩ (demoClient 3)
      (demoEnv [fun _ => .response ⟨500, "500 Internal Server Error", [],
        ⟨[123, 34, 101, 114, 114, 111, 114, 34, 58, 34, 98, 111, 111, 109, 34, 125], none⟩⟩])
      [] ⟨"GET", "https://rancher.example/v3", [], []⟩ (by decide) rfl rfl).2.1
      _ [] 500 "500 Internal Server Error" []
      [123, 34, 101, 114, 114, 111, 114, 34, 58, 34, 98, 111, 111, 109, 34, 125]
      rfl rfl (by decide)).2,
   ((DoRequest_returns_delivered_body demoRequest ⟨0⟩ (demoClient 3)
      (demoEnv [fun _ => .response (found "https://rancher.example/v3/next"),
        fun _ => .response ⟨404, "404 Not Found", [], ⟨[103, 111, 110, 101], none⟩⟩])
      [] ⟨"GET", "https://rancher.example/v3", [], []⟩ (by decide) rfl rfl).1
      ⟨["system-root"]⟩ 404 "404 Not Found" [] [103, 111, 110, 101]
      rfl rfl).1⟩

/-- C6: for a request with a non-empty endpoint. With a nil `Body` the bytes
    handed to `http.NewRequest` are empty, and when the request is accepted
    the first request on the wire has the empty body. With a non-nil `Body`
    that `json.Marshal` turns into `bytes`, the same holds with `bytes`. With
    a `Body` that `json.Marshal` rejects with `e`, `DoRequest` returns a nil
    body and the error `Doing request: error marshalling body: e`, and no
    request is built or sent. -/
theorem DoRequest_request_body (r : RancherHttpRequest) (ctx : Context)
    (c : RancherHttpClient) (E : Env) (hE : r.Endpoint ≠ "") :
    (r.Body = none →
      builtRequests (r.DoRequest ctx (.httpClient (some c)) E).trace =
        [(r.Method, r.Endpoint, [])] ∧
      (E.newRequestErr r.Method r.Endpoint = none →
        ∃ q tail, sentRequests (r.DoRequest ctx (.httpClient (some c)) E).trace = q :: tail ∧
          q.Body = [])) ∧
    (∀ v bytes, r.Body = some v → E.jsonMarshal v = .ok bytes →
      builtRequests (r.DoRequest ctx (.httpClient (some c)) E).trace =
        [(r.Method, r.Endpoint, bytes)] ∧
      (E.newRequestErr r.Method r.Endpoint = none →
        ∃ q tail, sentRequests (r.DoRequest ctx (.httpClient (some c)) E).trace = q :: tail ∧
          q.Body = bytes)) ∧
    (∀ v e, r.Body = some v → E.jsonMarshal v = .error e →
      (r.DoRequest ctx (.httpClient (some c)) E).result =
        .returned (none, some ("Doing request: error marshalling body: " ++ e)) ∧
      builtRequests (r.DoRequest ctx (.httpClient (some c)) E).trace = [] ∧
      sentRequests (r.DoRequest ctx (.httpClient (some c)) E).trace = []) := by
  have key : ∀ bytes, DoRequest.reqBody r E = .ok bytes →
      builtRequests (r.DoRequest ctx (.httpClient (some c)) E).trace =
        [(r.Method, r.Endpoint, bytes)] ∧
      (E.newRequestErr r.Method r.Endpoint = none →
        ∃ q tail, sentRequests (r.DoRequest ctx (.httpClient (some c)) E).trace = q :: tail ∧
          q.Body = bytes) := by
    intro bytes hb
    cases hv : E.newRequestErr r.Method r.Endpoint with
    | some e =>
      have hn : http.NewRequest E r.Method r.Endpoint bytes = .error e := by
        simp [http.NewRequest, hv]
      obtain ⟨pool, t1, hp, hrun⟩ := DoRequest_newRequest_fails r ctx c E bytes e hE hb hn
      obtain ⟨pool', t1', hp', -, hb1, -, -⟩ := rootCAs_returned ctx c E
      rw [hp] at hp'
      injection hp' with _ htr
      subst htr
      refine ⟨?_, fun h => by cases h⟩
      rw [hrun]
      simp [builtRequests_append, builtRequests, hb1]
    | none =>
      have hn : http.NewRequest E r.Method r.Endpoint bytes =
          .ok ⟨if r.Method = "" then "GET" else r.Method, r.Endpoint, bytes, []⟩ := by
        simp [http.NewRequest, hv]
      obtain ⟨pool, -, hs, -, hbl⟩ := DoRequest_exchange_trace r ctx c E bytes _ hE hb hn
      refine ⟨hbl, fun _ => ?_⟩
      obtain ⟨⟨tail, htail⟩, -, -⟩ := loop_trace E ⟨⟨c.Insecure, some pool⟩, true⟩ c.Timeout
        ctx c (DoRequest.addHeaders r c ⟨if r.Method = "" then "GET" else r.Method,
          r.Endpoint, bytes, []⟩) E.server
        (DoRequest.addHeaders r c ⟨if r.Method = "" then "GET" else r.Method,
          r.Endpoint, bytes, []⟩) []
      exact ⟨_, tail, hs.trans htail, (addHeaders_keeps r c _).1⟩
  refine ⟨fun hnil => key [] (by simp [DoRequest.reqBody, hnil]),
    fun v bytes hv hm => key bytes (by simp [DoRequest.reqBody, hv, hm]),
    fun v e hv hm => ?_⟩
  have hb : DoRequest.reqBody r E = .error e := by simp [DoRequest.reqBody, hv, hm]
  obtain ⟨pool, t1, hp, hrun⟩ := DoRequest_marshal_fails r ctx c E e hE hb
  obtain ⟨pool', t1', hp', hs1, hb1, -, -⟩ := rootCAs_returned ctx c E
  rw [hp] at hp'
  injection hp' with _ htr
  subst htr
  rw [hrun]
  simp [builtRequests_append, builtRequests, sentRequests_append, sentRequests, hs1, hb1]

/-- Witness for C6: a POST whose body marshals to `{}` puts exactly these two
    bytes on the wire; a POST whose body cannot be marshalled returns the
    marshal error and sends nothing. -/
theorem DoRequest_request_body_witness :
    (∃ q tail,
      sentRequests ((⟨"POST", "https://rancher.example/v3/thing", some ⟨1⟩, []⟩ :
          RancherHttpRequest).DoRequest ⟨0⟩ (.httpClient (some (demoClient 3)))
          (demoEnv [fun _ => .response (ok200 [])])).trace = q :: tail ∧
        q.Body = [123, 125]) ∧
    ((⟨"POST", "https://rancher.example/v3/thing", some ⟨0⟩, []⟩ :
        RancherHttpRequest).DoRequest ⟨0⟩ (.httpClient (some (demoClient 3)))
        (demoEnv [fun _ => .response (ok200 [])])).result =
      .returned (none,
        some "Doing request: error marshalling body: json: unsupported type: chan int") ∧
    sentRequests ((⟨"POST", "https://rancher.example/v3/thing", some ⟨0⟩, []⟩ :
        RancherHttpRequest).DoRequest ⟨0⟩ (.httpClient (some (demoClient 3)))
        (demoEnv [fun _ => .response (ok200 [])])).trace = [] :=
  ⟨((DoRequest_request_body ⟨"POST", "https://rancher.example/v3/thing", some ⟨1⟩, []⟩ ⟨0⟩
      (demoClient 3) (demoEnv [fun _ => .response (ok200 [])]) (by decide)).2.1
      ⟨1⟩ [123, 125] rfl rfl).2 rfl,
   ((DoRequest_request_body ⟨"POST", "https://rancher.example/v3/thing", some ⟨0⟩, []⟩ ⟨0⟩
      (demoClient 3) (demoEnv [fun _ => .response (ok200 [])]) (by decide)).2.2
      ⟨0⟩ "json: unsupported type: chan int" rfl rfl).1,
   ((DoRequest_request_body ⟨"POST", "https://rancher.example/v3/thing", some ⟨0⟩, []⟩ ⟨0⟩
      (demoClient 3) (demoEnv [fun _ => .response (ok200 [])]) (by decide)).2.2
      ⟨0⟩ "json: unsupported type: chan int" rfl rfl).2.2⟩

/-- C3: for a client with a non-empty `Token` and a request with a non-empty
    endpoint, every request `DoRequest` puts on the wire (the initial one and
    every redirected one) carries `Bearer <Token>` among its `Authorization`
    values; the header of the initial request is the caller headers followed
    by that entry; and whenever the redirect callback accepts a request it
    has appended that entry to the header of the request. -/
theorem DoRequest_bearer_on_every_hop (r : RancherHttpRequest) (ctx : Context)
    (c : RancherHttpClient) (E : Env) (hE : r.Endpoint ≠ "") (htok : c.Token ≠ "") :
    (∀ q ∈ sentRequests (r.DoRequest ctx (.httpClient (some c)) E).trace,
      ("Bearer " ++ c.Token) ∈ q.Header.Values "Authorization") ∧
    (∀ q tail, sentRequests (r.DoRequest ctx (.httpClient (some c)) E).trace = q :: tail →
      q.Header = r.Headers ++ [("Authorization", "Bearer " ++ c.Token)]) ∧
    (∀ req via, (MaxRedirectCheckFunction ctx c req via).1 = none →
      (MaxRedirectCheckFunction ctx c req via).2.1.Header =
        req.Header ++ [("Authorization", "Bearer " ++ c.Token)]) := by
  have hpos : len c.Token > 0 := (len_pos_iff _).mpr htok
  have hcheck : ∀ req via, (MaxRedirectCheckFunction ctx c req via).1 = none →
      (MaxRedirectCheckFunction ctx c req via).2.1.Header =
        req.Header ++ [("Authorization", "Bearer " ++ c.Token)] := by
    intro req via hnone
    by_cases hstop : c.MaxRedirects ≤ (via.length : Int)
    · rw [check_stop ctx c req via hstop] at hnone
      cases hnone
    · rw [check_pass ctx c req via (not_le.mp hstop)]
      simp [hpos, Header.Add]
  obtain ⟨pool0, t0, hp0, hs0, -, -, -⟩ := rootCAs_returned ctx c E
  cases hb : DoRequest.reqBody r E with
  | error e =>
    obtain ⟨pool, t1, hp, hrun⟩ := DoRequest_marshal_fails r ctx c E e hE hb
    rw [hp0] at hp
    injection hp with _ htr
    subst htr
    have hsent : sentRequests (r.DoRequest ctx (.httpClient (some c)) E).trace = [] := by
      rw [hrun]
      simp [sentRequests_append, sentRequests, hs0]
    rw [hsent]
    exact ⟨fun q hq => (by cases hq), fun q tail h => (by cases h), hcheck⟩
  | ok body =>
    cases hn : http.NewRequest E r.Method r.Endpoint body with
    | error e =>
      obtain ⟨pool, t1, hp, hrun⟩ := DoRequest_newRequest_fails r ctx c E body e hE hb hn
      rw [hp0] at hp
      injection hp with _ htr
      subst htr
      have hsent : sentRequests (r.DoRequest ctx (.httpClient (some c)) E).trace = [] := by
        rw [hrun]
        simp [sentRequests_append, sentRequests, hs0]
      rw [hsent]
      exact ⟨fun q hq => (by cases hq), fun q tail h => (by cases h), hcheck⟩
    | ok built =>
      obtain ⟨pool, -, hs, -, -⟩ := DoRequest_exchange_trace r ctx c E body built hE hb hn
      have hbuilt := NewRequest_ok E r.Method r.Endpoint body built hn
      have hhdr : (DoRequest.addHeaders r c built).Header =
          r.Headers ++ [("Authorization", "Bearer " ++ c.Token)] := by
        rw [addHeaders_with_token r c built htok, hbuilt]
        simp
      rw [hs]
      unfold http.Client.Do
      refine ⟨?_, ?_, hcheck⟩
      · apply loop_auth E _ c.Timeout ctx c _ htok
        rw [hhdr]
        simp [Header.Values]
      · intro q tail hq
        obtain ⟨tail', htail⟩ := (loop_trace E ⟨⟨c.Insecure, some pool⟩, true⟩ c.Timeout ctx c
          (DoRequest.addHeaders r c built) E.server (DoRequest.addHeaders r c built) []).1
        rw [htail] at hq
        injection hq with hq _
        rw [← hq]
        exact hhdr

/-- Witness for C3: one redirect is followed (limit 3) and both requests on
    the wire carry the bearer value. -/
theorem DoRequest_bearer_on_every_hop_witness :
    (sentRequests (demoRequest.DoRequest ⟨0⟩ (.httpClient (some (demoClient 3)))
        (demoEnv [fun _ => .response (found "https://rancher.example/v3/next"),
          fun _ => .response (ok200 [111, 107])])).trace).length = 2 ∧
    ∀ q ∈ sentRequests (demoRequest.DoRequest ⟨0⟩ (.httpClient (some (demoClient 3)))
        (demoEnv [fun _ => .response (found "https://rancher.example/v3/next"),
          fun _ => .response (ok200 [111, 107])])).trace,
      "Bearer tok" ∈ q.Header.Values "Authorization" :=
  ⟨by decide,
    (DoRequest_bearer_on_every_hop demoRequest ⟨0⟩ (demoClient 3)
      (demoEnv [fun _ => .response (found "https://rancher.example/v3/next"),
        fun _ => .response (ok200 [111, 107])]) (by decide) (by decide)).1⟩

/-- C2: for a client with `MaxRedirects = n ≥ 0` and a request with a
    non-empty endpoint that marshals and is accepted by `http.NewRequest`,
    against a server whose first `n + 1` answers are all redirects: the
    callback returns the error `Stopped after n redirects` when `via` holds
    `n + 1` requests (the `n + 1`-th redirect); `DoRequest` returns a nil body
    and a non-nil error, the `*url.Error` around that callback error; the
    callback error was logged; and no more than `n + 1` requests were put on
    the wire, so the callback failed no later than the `n + 1`-th redirect. -/
theorem DoRequest_redirect_limit_exceeded (r : RancherHttpRequest) (ctx : Context)
    (c : RancherHttpClient) (E : Env) (n : Nat) (body : Bytes) (built : HttpRequest)
    (hN : c.MaxRedirects = (n : Int)) (hE : r.Endpoint ≠ "")
    (hb : DoRequest.reqBody r E = .ok body)
    (hn : http.NewRequest E r.Method r.Endpoint body = .ok built)
    (hred : leadingRedirects (n + 1) E.server) :
    (∀ req via, via.length = n + 1 →
      (MaxRedirectCheckFunction ctx c req via).1 =
        some ("Stopped after " ++ fmtInt n ++ " redirects")) ∧
    (∃ location, (r.DoRequest ctx (.httpClient (some c)) E).result =
      .returned (none, some ("Doing request: " ++
        E.urlError built.Method location ("Stopped after " ++ fmtInt n ++ " redirects")))) ∧
    ("Stopped after " ++ fmtInt n ++ " redirects") ∈
      errorLogs (r.DoRequest ctx (.httpClient (some c)) E).trace ∧
    (sentRequests (r.DoRequest ctx (.httpClient (some c)) E).trace).length ≤ n + 1 := by
  obtain ⟨pool, t1, -, hrun⟩ := DoRequest_exchange r ctx c E body built hE hb hn
  obtain ⟨pool', hp', hs, -, -⟩ := DoRequest_exchange_trace r ctx c E body built hE hb hn
  have hlen : c.MaxRedirects ≤ ((([] : List HttpRequest).length + (n + 1) : Nat) : Int) := by
    rw [hN]
    push_cast
    simp
  obtain ⟨⟨location, herr⟩, hcount, hlog⟩ := loop_stops E ⟨⟨c.Insecure, some pool⟩, true⟩
    c.Timeout ctx c (DoRequest.addHeaders r c built) E.server (DoRequest.addHeaders r c built)
    [] (n + 1) (Nat.succ_le_succ (Nat.zero_le n)) hlen hred
  obtain ⟨-, hcount', -⟩ := loop_stops E ⟨⟨c.Insecure, some pool'⟩, true⟩
    c.Timeout ctx c (DoRequest.addHeaders r c built) E.server (DoRequest.addHeaders r c built)
    [] (n + 1) (Nat.succ_le_succ (Nat.zero_le n)) hlen hred
  rw [hN] at herr hlog
  refine ⟨?_, ⟨location, ?_⟩, ?_, ?_⟩
  · intro req via hvia
    have hstop : c.MaxRedirects ≤ (via.length : Int) := by
      rw [hN, hvia]
      push_cast
      omega
    rw [check_stop ctx c req via hstop, hN]
  · rw [hrun]
    unfold http.Client.Do
    rw [herr, (addHeaders_keeps r c built).2.1]
  · rw [hrun]
    unfold http.Client.Do
    rw [herr]
    simp only [errorLogs_append, List.mem_append]
    exact Or.inl (Or.inr hlog)
  · rw [hs]
    exact hcount'

/-- Witness for C2: limit 1 and a server that redirects twice. -/
theorem DoRequest_redirect_limit_exceeded_witness :
    leadingRedirects (1 + 1)
      (demoEnv [fun _ => .response (found "https://rancher.example/a"),
        fun _ => .response (found "https://rancher.example/b")]).server ∧
    (demoRequest.DoRequest ⟨0⟩ (.httpClient (some (demoClient 1)))
        (demoEnv [fun _ => .response (found "https://rancher.example/a"),
          fun _ => .response (found "https://rancher.example/b")])).result =
      .returned (none,
        some "Doing request: Get \"https://rancher.example/a\": Stopped after 1 redirects") ∧
    (sentRequests (demoRequest.DoRequest ⟨0⟩ (.httpClient (some (demoClient 1)))
        (demoEnv [fun _ => .response (found "https://rancher.example/a"),
          fun _ => .response (found "https://rancher.example/b")])).trace).length ≤ 1 + 1 :=
  ⟨⟨fun _ => rfl, fun _ => rfl, trivial⟩, by decide,
    (DoRequest_redirect_limit_exceeded demoRequest ⟨0⟩ (demoClient 1)
      (demoEnv [fun _ => .response (found "https://rancher.example/a"),
        fun _ => .response (found "https://rancher.example/b")]) 1 []
      ⟨"GET", "https://rancher.example/v3", [], []⟩ rfl (by decide) rfl rfl
      ⟨fun _ => rfl, fun _ => rfl, trivial⟩).2.2.2⟩

theorem redirectsThen_leading (k : Nat) (resp : Response)
    (script : List (HttpRequest → ServerReply)) (h : redirectsThen k resp script) :
    leadingRedirects k script := by
  induction script generalizing k with
  | nil => simp [redirectsThen] at h
  | cons answer script ih =>
    cases k with
    | zero => trivial
    | succ j => exact ⟨h.1, ih j h.2⟩

/-- While the requests made plus the redirects to come stay below the limit,
    the loop follows every redirect and delivers the response after them. -/
theorem loop_follows (E : Env) (transport : Transport) (timeout : Int) (ctx : Context)
    (c : RancherHttpClient) (ireq : HttpRequest)
    (script : List (HttpRequest → ServerReply)) (req : HttpRequest) (via : List HttpRequest)
    (k : Nat) (resp : Response) (hlen : ((via.length + k : Nat) : Int) < c.MaxRedirects)
    (hred : redirectsThen k resp script) :
    (http.Client.loop E transport timeout (MaxRedirectCheckFunction ctx c) ireq script
      req via).1 = .ok resp ∧
    (sentRequests (http.Client.loop E transport timeout (MaxRedirectCheckFunction ctx c) ireq
      script req via).2).length = k + 1 := by
  induction script generalizing req via k with
  | nil => simp [redirectsThen] at hred
  | cons answer script ih =>
    cases k with
    | zero =>
      rw [loop_response _ _ _ _ _ _ _ _ _ _ (hred.2 req) hred.1]
      simp [sentRequests]
    | succ j =>
      obtain ⟨hfirst, hrest⟩ := hred
      obtain ⟨location, hans⟩ := (isRedirect_iff _).mp (hfirst req)
      have hlen1 : (via ++ [req]).length = via.length + 1 := by simp
      have hgo : (((via ++ [req]).length : Nat) : Int) < c.MaxRedirects := by
        rw [hlen1]
        push_cast at hlen ⊢
        omega
      have hlen' : ((((via ++ [req]).length + j : Nat)) : Int) < c.MaxRedirects := by
        rw [hlen1]
        push_cast at hlen ⊢
        omega
      rw [loop_redirect_follow _ _ _ _ _ _ _ _ _ _ _ _ hans (check_pass ctx c _ _ hgo)]
      obtain ⟨h1, h2⟩ := ih _ (via ++ [req]) j hlen' hrest
      refine ⟨h1, ?_⟩
      simp only [List.singleton_append, List.append_nil, List.cons_append, List.nil_append,
        sentRequests, List.length_cons]
      exact congrArg Nat.succ h2

/-- What the code does at the limit, in general: with `MaxRedirects = n ≥ 1`,
    a server that answers exactly `n` redirects and then a response makes
    `DoRequest` fail with the callback error. -/
theorem DoRequest_exact_limit_fails (r : RancherHttpRequest) (ctx : Context)
    (c : RancherHttpClient) (E : Env) (n : Nat) (body : Bytes) (built : HttpRequest)
    (resp : Response) (hpos : 1 ≤ n)
    (hN : c.MaxRedirects = (n : Int)) (hE : r.Endpoint ≠ "")
    (hb : DoRequest.reqBody r E = .ok body)
    (hn : http.NewRequest E r.Method r.Endpoint body = .ok built)
    (hred : redirectsThen n resp E.server) :
    ∃ location, (r.DoRequest ctx (.httpClient (some c)) E).result =
      .returned (none, some ("Doing request: " ++
        E.urlError built.Method location ("Stopped after " ++ fmtInt n ++ " redirects"))) := by
  obtain ⟨pool, t1, -, hrun⟩ := DoRequest_exchange r ctx c E body built hE hb hn
  have hlen : c.MaxRedirects ≤ ((([] : List HttpRequest).length + n : Nat) : Int) := by
    rw [hN]
    simp
  obtain ⟨⟨location, herr⟩, -, -⟩ := loop_stops E ⟨⟨c.Insecure, some pool⟩, true⟩
    c.Timeout ctx c (DoRequest.addHeaders r c built) E.server (DoRequest.addHeaders r c built)
    [] n hpos hlen (redirectsThen_leading n resp E.server hred)
  rw [hN] at herr
  refine ⟨location, ?_⟩
  rw [hrun]
  unfold http.Client.Do
  rw [herr, (addHeaders_keeps r c built).2.1]

/-- What the code does below the limit: with fewer than `MaxRedirects`
    redirects before the response, `DoRequest` follows them all and returns
    the body of the response. -/
theorem DoRequest_below_limit_succeeds (r : RancherHttpRequest) (ctx : Context)
    (c : RancherHttpClient) (E : Env) (k : Nat) (body : Bytes) (built : HttpRequest)
    (resp : Response) (hk : (k : Int) < c.MaxRedirects) (hE : r.Endpoint ≠ "")
    (hb : DoRequest.reqBody r E = .ok body)
    (hn : http.NewRequest E r.Method r.Endpoint body = .ok built)
    (hred : redirectsThen k resp E.server) :
    (r.DoRequest ctx (.httpClient (some c)) E).result =
      .returned (some resp.Body.data, resp.Body.readErr) := by
  obtain ⟨pool, t1, -, hrun⟩ := DoRequest_exchange r ctx c E body built hE hb hn
  have hlen : ((([] : List HttpRequest).length + k : Nat) : Int) < c.MaxRedirects := by
    simpa using hk
  obtain ⟨hok, -⟩ := loop_follows E ⟨⟨c.Insecure, some pool⟩, true⟩
    c.Timeout ctx c (DoRequest.addHeaders r c built) E.server (DoRequest.addHeaders r c built)
    [] k resp hlen hred
  rw [hrun]
  unfold http.Client.Do
  rw [hok]

/-- C1, evaluated on the code: with `MaxRedirects = 1`, against a server that
    answers one redirect and then 200 with the body `ok`, `DoRequest` does not
    return that body: the callback sees `via` of length 1 at the first
    redirect, `1 >= 1` holds, and the call returns a nil body and the
    error built around `Stopped after 1 redirects`. Only the first request
    was put on the wire. -/
theorem DoRequest_one_redirect_limit_one :
    (demoRequest.DoRequest ⟨0⟩ (.httpClient (some (demoClient 1)))
        (demoEnv [fun _ => .response (found "https://rancher.example/v3/next"),
          fun _ => .response (ok200 [111, 107])])).result =
      .returned (none,
        some "Doing request: Get \"https://rancher.example/v3/next\": Stopped after 1 redirects") ∧
    (sentRequests (demoRequest.DoRequest ⟨0⟩ (.httpClient (some (demoClient 1)))
        (demoEnv [fun _ => .response (found "https://rancher.example/v3/next"),
          fun _ => .response (ok200 [111, 107])])).trace).length = 1 ∧
    (demoRequest.DoRequest ⟨0⟩ (.httpClient (some (demoClient 2)))
        (demoEnv [fun _ => .response (found "https://rancher.example/v3/next"),
          fun _ => .response (ok200 [111, 107])])).result =
      .returned (some [111, 107], none) := by
  decide

/-- Every return of `DoRequest` with a nil body and a non-nil error was
    preceded by an error-level log event with the text of that error. -/
theorem DoRequest_nil_body_error_logged (r : RancherHttpRequest) (ctx : Context)
    (rc : RancherClient) (E : Env) (e : String)
    (h : (r.DoRequest ctx rc E).result = .returned (none, some e)) :
    e ∈ errorLogs (r.DoRequest ctx rc E).trace := by
  cases rc with
  | other ty =>
    have h' : e = "Doing request: invalid rancher client type" := by
      simp [RancherHttpRequest.DoRequest] at h
      exact h.symm
    subst h'
    simp [RancherHttpRequest.DoRequest, errorLogs]
  | httpClient cptr =>
    by_cases hE : r.Endpoint = ""
    · have h' : e = "Doing request: URL is nil" := by
        simp [RancherHttpRequest.DoRequest, hE] at h
        exact h.symm
      subst h'
      simp [RancherHttpRequest.DoRequest, hE, errorLogs]
    · cases cptr with
      | none => simp [RancherHttpRequest.DoRequest, hE] at h
      | some c =>
        cases hb : DoRequest.reqBody r E with
        | error m =>
          obtain ⟨pool, t1, -, hrun⟩ := DoRequest_marshal_fails r ctx c E m hE hb
          rw [hrun] at h ⊢
          injection h with h
          injection h with _ h
          injection h with h
          subst h
          simp [errorLogs_append, errorLogs]
        | ok body =>
          cases hn : http.NewRequest E r.Method r.Endpoint body with
          | error m =>
            obtain ⟨pool, t1, -, hrun⟩ := DoRequest_newRequest_fails r ctx c E body m hE hb hn
            rw [hrun] at h ⊢
            injection h with h
            injection h with _ h
            injection h with h
            subst h
            simp [errorLogs_append, errorLogs]
          | ok built =>
            obtain ⟨pool, t1, -, hrun⟩ := DoRequest_exchange r ctx c E body built hE hb hn
            rw [hrun] at h ⊢
            cases hdo : (http.Client.Do E ⟨⟨c.Insecure, some pool⟩, true⟩ c.Timeout
                (MaxRedirectCheckFunction ctx c) (DoRequest.addHeaders r c built)).1 with
            | error m =>
              rw [hdo] at h
              injection h with h
              injection h with _ h
              injection h with h
              subst h
              simp [errorLogs_append, errorLogs]
            | ok resp =>
              rw [hdo] at h
              injection h with h
              injection h with h _
              cases h

/-- C9, evaluated on the code: a response whose body stream breaks while it
    is read (`ioutil.ReadAll` returns the bytes read so far and the error
    `unexpected EOF`) makes `DoRequest` return that non-nil error, and the
    trace of the call holds no error-level log event at all. -/
theorem DoRequest_read_error_not_logged :
    (demoRequest.DoRequest ⟨0⟩ (.httpClient (some (demoClient 3)))
        (demoEnv [fun _ => .response ⟨200, "200 OK", [],
          ⟨[123], some "unexpected EOF"⟩⟩])).result =
      .returned (some [123], some "unexpected EOF") ∧
    errorLogs (demoRequest.DoRequest ⟨0⟩ (.httpClient (some (demoClient 3)))
        (demoEnv [fun _ => .response ⟨200, "200 OK", [],
          ⟨[123], some "unexpected EOF"⟩⟩])).trace = [] := by
  decide

/-- C10: for every client configuration and every answer of the system pool
    lookup, the pool block of `DoRequest` returns (no panic) a non-nil pool;
    when `IgnoreSystemCA` is set or the lookup yields nil, that pool is the
    fresh empty pool, with `CACert` appended to it when `CACert` is not empty;
    every transport `DoRequest` uses on the wire has exactly this non-nil pool
    as `RootCAs`; and when the append of a non-empty `CACert` fails, the call
    logs the warning and goes on: a request that marshals and is accepted is
    still put on the wire. -/
theorem DoRequest_rootCAs_never_nil (ctx : Context) (c : RancherHttpClient) (E : Env) :
    (∃ pool, (DoRequest.rootCAs ctx c E).result = .returned (some pool)) ∧
    (c.IgnoreSystemCA = true ∨ E.SystemCertPool.1 = none →
      (DoRequest.rootCAs ctx c E).result =
        .returned (some (if c.CACert = "" then NewCertPool
          else (E.AppendCertsFromPEM NewCertPool c.CACert).1))) ∧
    (∀ (r : RancherHttpRequest),
      ∀ t ∈ usedTransports (r.DoRequest ctx (.httpClient (some c)) E).trace,
        ∃ pool, t.TLSClientConfig.RootCAs = some pool ∧
          (DoRequest.rootCAs ctx c E).result = .returned (some pool)) ∧
    (∀ (r : RancherHttpRequest) (body : Bytes) (built : HttpRequest),
      r.Endpoint ≠ "" → DoRequest.reqBody r E = .ok body →
      http.NewRequest E r.Method r.Endpoint body = .ok built →
      c.CACert ≠ "" → (∀ pool, (E.AppendCertsFromPEM pool c.CACert).2 = false) →
        Effect.log ctx .warn "No certs appended, using system certs only" ∈
          (r.DoRequest ctx (.httpClient (some c)) E).trace ∧
        sentRequests (r.DoRequest ctx (.httpClient (some c)) E).trace ≠ []) := by
  obtain ⟨pool0, t0, hp0, hs0, -, -, hu0⟩ := rootCAs_returned ctx c E
  refine ⟨⟨pool0, by rw [hp0]⟩, ?_, ?_, ?_⟩
  · intro h
    unfold DoRequest.rootCAs
    by_cases hca : c.CACert = ""
    · rcases h with hig | hsys
      · simp [hca, hig]
      · by_cases hig : c.IgnoreSystemCA = true
        · simp [hca, hig]
        · simp [hca, hig, hsys]
    · rcases h with hig | hsys
      · simp [hca, hig]
      · by_cases hig : c.IgnoreSystemCA = true
        · simp [hca, hig]
        · simp [hca, hig, hsys]
  · intro r t ht
    by_cases hE : r.Endpoint = ""
    · simp [RancherHttpRequest.DoRequest, hE, usedTransports] at ht
    · cases hb : DoRequest.reqBody r E with
      | error e =>
        obtain ⟨pool, t1, hp, hrun⟩ := DoRequest_marshal_fails r ctx c E e hE hb
        rw [hp0] at hp
        injection hp with _ htr
        subst htr
        rw [hrun] at ht
        simp [usedTransports_append, usedTransports, hu0] at ht
      | ok body =>
        cases hn : http.NewRequest E r.Method r.Endpoint body with
        | error e =>
          obtain ⟨pool, t1, hp, hrun⟩ := DoRequest_newRequest_fails r ctx c E body e hE hb hn
          rw [hp0] at hp
          injection hp with _ htr
          subst htr
          rw [hrun] at ht
          simp [usedTransports_append, usedTransports, hu0] at ht
        | ok built =>
          obtain ⟨pool, hp, -, hu, -⟩ := DoRequest_exchange_trace r ctx c E body built hE hb hn
          rw [hu] at ht
          have ht' := (loop_trace E ⟨⟨c.Insecure, some pool⟩, true⟩ c.Timeout ctx c
            (DoRequest.addHeaders r c built) E.server (DoRequest.addHeaders r c built) []).2.1
            t ht
          exact ⟨pool, by rw [ht'], hp⟩
  · intro r body built hE hb hn hca hfail
    obtain ⟨pool, t1, hp, hrun⟩ := DoRequest_exchange r ctx c E body built hE hb hn
    obtain ⟨pool', -, hs, -, -⟩ := DoRequest_exchange_trace r ctx c E body built hE hb hn
    obtain ⟨⟨tail, htail⟩, -, -⟩ := loop_trace E ⟨⟨c.Insecure, some pool'⟩, true⟩ c.Timeout
      ctx c (DoRequest.addHeaders r c built) E.server (DoRequest.addHeaders r c built) []
    have hwarn : Effect.log ctx .warn "No certs appended, using system certs only" ∈ t1 := by
      have hp1 := hp
      unfold DoRequest.rootCAs at hp1
      by_cases hig : c.IgnoreSystemCA = true
      · simp only [hca, hig, if_true, if_false, ne_eq, not_false_eq_true, hfail] at hp1
        injection hp1 with _ htr
        rw [← htr]
        simp
      · cases hsys : E.SystemCertPool.1 with
        | none =>
          simp only [hca, hig, hsys, if_true, if_false, ne_eq, not_false_eq_true,
            hfail] at hp1
          injection hp1 with _ htr
          rw [← htr]
          simp
        | some p =>
          simp only [hca, hig, hsys, if_true, if_false, ne_eq, not_false_eq_true,
            hfail] at hp1
          injection hp1 with _ htr
          rw [← htr]
          simp
    refine ⟨?_, ?_⟩
    · rw [hrun]
      cases (http.Client.Do E ⟨⟨c.Insecure, some pool⟩, true⟩ c.Timeout
          (MaxRedirectCheckFunction ctx c) (DoRequest.addHeaders r c built)).1 <;>
        simp [hwarn]
    · rw [hs]
      unfold http.Client.Do
      rw [htail]
      exact List.cons_ne_nil _ _

/-- Witness for C10: system pool ignored and a `CACert` that does not parse:
    the pool in the TLS configuration is the fresh empty pool, the warning is
    logged and the request is sent. -/
theorem DoRequest_rootCAs_never_nil_witness :
    (DoRequest.rootCAs ⟨0⟩
        (NewRancherHttpClient "https://rancher.example" "not a certificate" true false "tok" 3
          30000000000)
        (demoEnv [fun _ => .response (ok200 [111, 107])])).result =
      .returned (some NewCertPool) ∧
    usedTransports (demoRequest.DoRequest ⟨0⟩
        (.httpClient (some (NewRancherHttpClient "https://rancher.example" "not a certificate"
          true false "tok" 3 30000000000)))
        (demoEnv [fun _ => .response (ok200 [111, 107])])).trace =
      [⟨⟨false, some NewCertPool⟩, true⟩] ∧
    (Effect.log ⟨0⟩ .warn "No certs appended, using system certs only" ∈
        (demoRequest.DoRequest ⟨0⟩
          (.httpClient (some (NewRancherHttpClient "https://rancher.example"
            "not a certificate" true false "tok" 3 30000000000)))
          (demoEnv [fun _ => .response (ok200 [111, 107])])).trace ∧
      sentRequests (demoRequest.DoRequest ⟨0⟩
          (.httpClient (some (NewRancherHttpClient "https://rancher.example"
            "not a certificate" true false "tok" 3 30000000000)))
          (demoEnv [fun _ => .response (ok200 [111, 107])])).trace ≠ []) :=
  ⟨by decide, by decide,
    (DoRequest_rootCAs_never_nil ⟨0⟩
      (NewRancherHttpClient "https://rancher.example" "not a certificate" true false "tok" 3
        30000000000)
      (demoEnv [fun _ => .response (ok200 [111, 107])])).2.2.2 demoRequest []
      ⟨"GET", "https://rancher.example/v3", [], []⟩ (by decide) rfl rfl (by decide)
      (fun _ => rfl)⟩

/-! ## The general theorems at concrete inputs -/

/-- Limit 2, two redirects, then 200: the call fails at the second redirect. -/
theorem DoRequest_exact_limit_fails_witness :
    redirectsThen 2 (ok200 [111, 107])
      (demoEnv [fun _ => .response (found "https://rancher.example/a"),
        fun _ => .response (found "https://rancher.example/b"),
        fun _ => .response (ok200 [111, 107])]).server ∧
    ∃ location, (demoRequest.DoRequest ⟨0⟩ (.httpClient (some (demoClient 2)))
        (demoEnv [fun _ => .response (found "https://rancher.example/a"),
          fun _ => .response (found "https://rancher.example/b"),
          fun _ => .response (ok200 [111, 107])])).result =
      .returned (none, some ("Doing request: " ++
        (demoEnv []).urlError "GET" location ("Stopped after " ++ fmtInt 2 ++ " redirects"))) :=
  ⟨⟨fun _ => rfl, fun _ => rfl, rfl, fun _ => rfl⟩,
    DoRequest_exact_limit_fails demoRequest ⟨0⟩ (demoClient 2)
      (demoEnv [fun _ => .response (found "https://rancher.example/a"),
        fun _ => .response (found "https://rancher.example/b"),
        fun _ => .response (ok200 [111, 107])]) 2 []
      ⟨"GET", "https://rancher.example/v3", [], []⟩ (ok200 [111, 107]) (by decide) rfl
      (by decide) rfl rfl ⟨fun _ => rfl, fun _ => rfl, rfl, fun _ => rfl⟩⟩

/-- Limit 3, two redirects, then 200: the body comes back. -/
theorem DoRequest_below_limit_succeeds_witness :
    (demoRequest.DoRequest ⟨0⟩ (.httpClient (some (demoClient 3)))
        (demoEnv [fun _ => .response (found "https://rancher.example/a"),
          fun _ => .response (found "https://rancher.example/b"),
          fun _ => .response (ok200 [111, 107])])).result =
      .returned (some [111, 107], none) :=
  DoRequest_below_limit_succeeds demoRequest ⟨0⟩ (demoClient 3)
    (demoEnv [fun _ => .response (found "https://rancher.example/a"),
      fun _ => .response (found "https://rancher.example/b"),
      fun _ => .response (ok200 [111, 107])]) 2 []
    ⟨"GET", "https://rancher.example/v3", [], []⟩ (ok200 [111, 107]) (by decide)
    (by decide) rfl rfl ⟨fun _ => rfl, fun _ => rfl, rfl, fun _ => rfl⟩

/-- A transport failure: the error returned is in the error-level log. -/
theorem DoRequest_nil_body_error_logged_witness :
    "Doing request: Get \"https://rancher.example/v3\": dial tcp: connection refused" ∈
      errorLogs (demoRequest.DoRequest ⟨0⟩ (.httpClient (some (demoClient 3)))
        (demoEnv [fun _ => .failure "dial tcp: connection refused"])).trace :=
  DoRequest_nil_body_error_logged demoRequest ⟨0⟩ (.httpClient (some (demoClient 3)))
    (demoEnv [fun _ => .failure "dial tcp: connection refused"]) _ (by decide)

end rancher_client
